import Mathlib

/-!
Verification of the static-site build pipeline (`scripts/build.ts`) and the
client bootstrap helper (`src/web/shared.ts`).

The TypeScript sources are shallowly embedded: strings become Lean `String`
(reasoned about through their `List Char` contents), a JavaScript global
single-character regexp replace becomes `replaceChar`, `JSON.stringify`
becomes `stringify` over an explicit `Json` value type, and the filesystem
seen by `discoverTrips` becomes an explicit list of directory entries.
-/

namespace TripSite

set_option maxRecDepth 40000

/-- One pass of a JavaScript `str.replace(/c/g, r)` for a single-character
pattern `c`: every occurrence of `c` in the scanned list is replaced by `r`;
replacement text is not rescanned. -/
def replaceChar (c : Char) (r : List Char) : List Char → List Char
  | [] => []
  | x :: xs => (if x = c then r else [x]) ++ replaceChar c r xs

/-- `escapeHtml` from `scripts/build.ts` (lines 443-450): five sequential
global replaces, `&` first, then `<`, `>`, `"`, `'`. -/
def escapeHtmlCore (l : List Char) : List Char :=
  replaceChar '\'' "&#039;".data
    (replaceChar '"' "&quot;".data
      (replaceChar '>' "&gt;".data
        (replaceChar '<' "&lt;".data
          (replaceChar '&' "&amp;".data l))))

/-- `escapeHtml` from `scripts/build.ts`, `String`-level wrapper. -/
def escapeHtml (input : String) : String :=
  String.mk (escapeHtmlCore input.data)

/-- The per-character escaping map described by the spec: each of the five
reserved HTML characters goes to its entity form, all others are unchanged.
This is the comparison point for `escapeHtml`, written from the spec's words. -/
def htmlEscapeSpec (c : Char) : List Char :=
  if c = '&' then "&amp;".data
  else if c = '<' then "&lt;".data
  else if c = '>' then "&gt;".data
  else if c = '"' then "&quot;".data
  else if c = '\'' then "&#039;".data
  else [c]

/-- JSON values the build script serializes (strings, arrays, objects of
string keys, booleans, integers, null); the embedding of the data passed to
`JSON.stringify` in `scripts/build.ts`. -/
inductive Json where
  | null : Json
  | bool (b : Bool) : Json
  | num (n : Int) : Json
  | str (s : String) : Json
  | arr (elems : List Json) : Json
  | obj (fields : List (String × Json)) : Json

/-- Lower-case hexadecimal digit, as emitted by `JSON.stringify` escapes. -/
def hexDigitLower (n : Nat) : Char :=
  if n < 10 then Char.ofNat (48 + n) else Char.ofNat (87 + n)

/-- The string escaping of ECMA-262 `QuoteJSONString`: `"` and `\` get a
backslash escape, the five short control escapes are used, and the remaining
control characters become `\u00XX`. -/
def escapeJsonChar (c : Char) : List Char :=
  if c = '"' then ['\\', '"']
  else if c = '\\' then ['\\', '\\']
  else if c = Char.ofNat 8 then ['\\', 'b']
  else if c = Char.ofNat 12 then ['\\', 'f']
  else if c = '\n' then ['\\', 'n']
  else if c = '\r' then ['\\', 'r']
  else if c = '\t' then ['\\', 't']
  else if c.toNat < 32 then
    ['\\', 'u', '0', '0', hexDigitLower (c.toNat / 16), hexDigitLower (c.toNat % 16)]
  else [c]

/-- A JSON-quoted string: surrounding double quotes with escaped contents. -/
def quoteJsonString (s : String) : List Char :=
  '"' :: (s.data.foldr (fun c acc => escapeJsonChar c ++ acc) ['"'])

mutual

/-- `JSON.stringify` on the embedded value type: no whitespace, elements and
fields separated by commas, object keys quoted. -/
def stringify : Json → List Char
  | .null => "null".data
  | .bool b => if b then "true".data else "false".data
  | .num n => (toString n).data
  | .str s => quoteJsonString s
  | .arr elems => '[' :: (stringifyElems elems ++ [']'])
  | .obj fields => Char.ofNat 123 :: (stringifyFields fields ++ [Char.ofNat 125])

/-- Comma-separated serialization of array elements. -/
def stringifyElems : List Json → List Char
  | [] => []
  | [j] => stringify j
  | j :: rest => stringify j ++ ',' :: stringifyElems rest

/-- Comma-separated serialization of object fields, written as key:value. -/
def stringifyFields : List (String × Json) → List Char
  | [] => []
  | [(k, v)] => quoteJsonString k ++ ':' :: stringify v
  | (k, v) :: rest => quoteJsonString k ++ ':' :: stringify v ++ ',' :: stringifyFields rest

end

/-- `serializeJson` from `scripts/build.ts` (lines 452-454):
`JSON.stringify(value).replace(/</g, "\u003c")` where the replacement text is
the six characters backslash, u, 0, 0, 3, c. -/
def serializeJson (value : Json) : String :=
  String.mk (replaceChar '<' "\\u003c".data (stringify value))

theorem replaceChar_append (c : Char) (r a b : List Char) :
    replaceChar c r (a ++ b) = replaceChar c r a ++ replaceChar c r b := by
  induction a with
  | nil => rfl
  | cons x xs ih => simp [replaceChar, ih]

theorem escapeHtmlCore_append (a b : List Char) :
    escapeHtmlCore (a ++ b) = escapeHtmlCore a ++ escapeHtmlCore b := by
  simp [escapeHtmlCore, replaceChar_append]

theorem escapeHtmlCore_single (x : Char) : escapeHtmlCore [x] = htmlEscapeSpec x := by
  by_cases h1 : x = '&'
  · subst h1; decide
  by_cases h2 : x = '<'
  · subst h2; decide
  by_cases h3 : x = '>'
  · subst h3; decide
  by_cases h4 : x = '"'
  · subst h4; decide
  by_cases h5 : x = '\''
  · subst h5; decide
  simp [escapeHtmlCore, replaceChar, htmlEscapeSpec, h1, h2, h3, h4, h5]

theorem escapeHtmlCore_eq_spec (l : List Char) :
    escapeHtmlCore l = l.foldr (fun c acc => htmlEscapeSpec c ++ acc) [] := by
  induction l with
  | nil => rfl
  | cons x xs ih =>
    have hx : x :: xs = [x] ++ xs := rfl
    rw [hx, escapeHtmlCore_append, escapeHtmlCore_single, ih]
    rfl

theorem not_mem_replaceChar_of_not_mem {c : Char} {r : List Char} (hr : c ∉ r) :
    ∀ l : List Char, c ∉ replaceChar c r l := by
  intro l
  induction l with
  | nil => simp [replaceChar]
  | cons x xs ih =>
    by_cases hx : x = c
    · simp [replaceChar, hx]
      exact ⟨hr, ih⟩
    · simp [replaceChar, hx]
      exact ⟨fun h => hx h.symm, ih⟩

/-- C1: every string embedded as visible text goes through `escapeHtml`, which
rewrites exactly the five reserved HTML characters to their entity forms (it
agrees with the per-character spec map on every input), so `<script>` renders
as `&lt;script&gt;`; and `serializeJson` never leaves a literal `<` in its
output — each `<` is emitted as the six-character sequence `\u003c` — so the
embedded trip-data script block cannot be terminated prematurely. -/
theorem escapeHtml_serializeJson_escaping :
    (∀ s : String, (escapeHtml s).data = s.data.foldr (fun c acc => htmlEscapeSpec c ++ acc) [])
      ∧ escapeHtml "<script>" = "&lt;script&gt;"
      ∧ (∀ value : Json, '<' ∉ (serializeJson value).data)
      ∧ serializeJson (Json.str "<") = "\"\\u003c\"" := by
  refine ⟨fun s => ?_, by decide, fun value => ?_, by decide⟩
  · simpa [escapeHtml] using escapeHtmlCore_eq_spec s.data
  · have hr : '<' ∉ "\\u003c".data := by decide
    simpa [serializeJson] using not_mem_replaceChar_of_not_mem hr (stringify value)

/-- `AGENT_ORDER` from `scripts/build.ts` (line 36). -/
def AGENT_ORDER : List String := ["claude", "gpt", "gemini", "grok"]

/-- `OVERVIEW_FILENAME` from `scripts/build.ts` (line 18). -/
def OVERVIEW_FILENAME : String := "overview.html"

/-- JavaScript `toLowerCase`, modelled character-wise. -/
def toLowerStr (s : String) : String := String.mk (s.data.map Char.toLower)

/-- JavaScript `filename.replace(/\.html$/i, "")`: drop a trailing `.html`
matched case-insensitively, otherwise leave the name unchanged. -/
def stripHtmlExt (filename : String) : String :=
  if (".html".data).isSuffixOf (toLowerStr filename).data then
    String.mk (filename.data.take (filename.data.length - 5))
  else filename

/-- `getAgentSortKey` from `scripts/build.ts` (lines 428-432). JavaScript's
`indexOf` returns `-1` when absent and the code then substitutes
`AGENT_ORDER.length`; `List.indexOf` returns the length directly. -/
def getAgentSortKey (filename : String) : Nat × String :=
  let base := toLowerStr (stripHtmlExt filename)
  (AGENT_ORDER.indexOf base, base)

/-- Lexicographic three-way comparison of character lists by code point, the
embedding of `localeCompare` on the already-lowercased base names. -/
def cmpList : List Char → List Char → Int
  | [], [] => 0
  | [], _ :: _ => -1
  | _ :: _, [] => 1
  | a :: as, b :: bs =>
    if a.toNat < b.toNat then -1 else if b.toNat < a.toNat then 1 else cmpList as bs

/-- The comparator passed to `Array.sort` inside `sortAiFiles`
(`scripts/build.ts` lines 418-425): bucket difference first, then the
secondary name comparison. -/
def cmpAiFiles (a b : String) : Int :=
  let ka := getAgentSortKey a
  let kb := getAgentSortKey b
  if ka.1 ≠ kb.1 then (ka.1 : Int) - (kb.1 : Int) else cmpList ka.2.data kb.2.data

instance : DecidableRel (fun a b : String => cmpAiFiles a b ≤ 0) :=
  fun _ _ => Int.decLe _ _

/-- `sortAiFiles` from `scripts/build.ts`: a stable sort of a copy of the
input by the comparator, modelled by insertion sort (stable, and agreeing
with any stable comparator sort because the comparator is a total preorder). -/
def sortAiFiles (files : List String) : List String :=
  List.insertionSort (fun a b => cmpAiFiles a b ≤ 0) files

theorem cmpList_nil_le (l : List Char) : cmpList [] l ≤ 0 := by
  cases l <;> simp [cmpList]

theorem cmpList_swap : ∀ a b : List Char, cmpList b a = -cmpList a b
  | [], [] => by simp [cmpList]
  | [], _ :: _ => by simp [cmpList]
  | _ :: _, [] => by simp [cmpList]
  | a :: as, b :: bs => by
    have ih := cmpList_swap as bs
    simp only [cmpList]
    split_ifs <;> omega

theorem cmpList_cons_le_iff (x y : Char) (xs ys : List Char) :
    cmpList (x :: xs) (y :: ys) ≤ 0 ↔
      x.toNat < y.toNat ∨ (x.toNat = y.toNat ∧ cmpList xs ys ≤ 0) := by
  simp only [cmpList]
  split_ifs <;> omega

theorem cmpList_trans :
    ∀ (a b c : List Char), cmpList a b ≤ 0 → cmpList b c ≤ 0 → cmpList a c ≤ 0
  | [], _, c, _, _ => cmpList_nil_le c
  | _ :: _, [], _, h1, _ => absurd h1 (by simp [cmpList])
  | _ :: _, _ :: _, [], _, h2 => absurd h2 (by simp [cmpList])
  | x :: xs, y :: ys, z :: zs, h1, h2 => by
    rw [cmpList_cons_le_iff] at h1 h2 ⊢
    rcases h1 with h1 | ⟨h1e, h1r⟩
    · rcases h2 with h2 | ⟨h2e, h2r⟩
      · exact Or.inl (by omega)
      · exact Or.inl (by omega)
    · rcases h2 with h2 | ⟨h2e, h2r⟩
      · exact Or.inl (by omega)
      · exact Or.inr ⟨by omega, cmpList_trans xs ys zs h1r h2r⟩

theorem cmpAiFiles_le_iff (a b : String) :
    cmpAiFiles a b ≤ 0 ↔
      ((getAgentSortKey a).1 < (getAgentSortKey b).1
        ∨ ((getAgentSortKey a).1 = (getAgentSortKey b).1
            ∧ cmpList (getAgentSortKey a).2.data (getAgentSortKey b).2.data ≤ 0)) := by
  simp only [cmpAiFiles]
  split_ifs <;> omega

instance : IsTrans String fun a b => cmpAiFiles a b ≤ 0 := by
  constructor
  intro a b c hab hbc
  rw [cmpAiFiles_le_iff] at hab hbc ⊢
  rcases hab with h1 | ⟨h1e, h1r⟩
  · rcases hbc with h2 | ⟨h2e, h2r⟩
    · exact Or.inl (by omega)
    · exact Or.inl (by omega)
  · rcases hbc with h2 | ⟨h2e, h2r⟩
    · exact Or.inl (by omega)
    · exact Or.inr ⟨by omega, cmpList_trans _ _ _ h1r h2r⟩

instance : IsTotal String fun a b => cmpAiFiles a b ≤ 0 := by
  constructor
  intro a b
  rw [cmpAiFiles_le_iff, cmpAiFiles_le_iff]
  have hswap := cmpList_swap (getAgentSortKey a).2.data (getAgentSortKey b).2.data
  omega

/-- C5: `sortAiFiles` is idempotent, its output is sorted by the key order
(bucket position in `AGENT_ORDER` first — unknown base names get bucket
`AGENT_ORDER.length` — with ties broken by the base-name comparison), and in
particular every filename whose base name is a known agent precedes every
filename whose base name is not. -/
theorem sortAiFiles_idem_and_ordered (files : List String) :
    sortAiFiles (sortAiFiles files) = sortAiFiles files
      ∧ (sortAiFiles files).Pairwise (fun a b =>
          (getAgentSortKey a).1 < (getAgentSortKey b).1
            ∨ ((getAgentSortKey a).1 = (getAgentSortKey b).1
                ∧ cmpList (getAgentSortKey a).2.data (getAgentSortKey b).2.data ≤ 0))
      ∧ (sortAiFiles files).Pairwise (fun a b =>
          (getAgentSortKey b).1 < AGENT_ORDER.length →
            (getAgentSortKey a).1 < AGENT_ORDER.length) := by
  have hsorted := List.sorted_insertionSort (fun a b => cmpAiFiles a b ≤ 0) files
  have hpair : (sortAiFiles files).Pairwise (fun a b =>
      (getAgentSortKey a).1 < (getAgentSortKey b).1
        ∨ ((getAgentSortKey a).1 = (getAgentSortKey b).1
            ∧ cmpList (getAgentSortKey a).2.data (getAgentSortKey b).2.data ≤ 0)) :=
    hsorted.imp (fun h => (cmpAiFiles_le_iff _ _).mp h)
  refine ⟨List.Sorted.insertionSort_eq hsorted, hpair, hpair.imp ?_⟩
  intro a b h
  omega

/-- The JavaScript whitespace set used by `trim` and the `\s` class: ASCII
whitespace, NBSP, the Unicode space separators, line/paragraph separators and
the BOM. -/
def isJsWhitespace (c : Char) : Bool :=
  c = ' ' || c = '\t' || c = '\n' || c = '\r'
    || c.toNat = 11 || c.toNat = 12 || c.toNat = 160 || c.toNat = 5760
    || (8192 ≤ c.toNat && c.toNat ≤ 8202)
    || c.toNat = 8232 || c.toNat = 8233 || c.toNat = 8239 || c.toNat = 8287
    || c.toNat = 12288 || c.toNat = 65279

/-- JavaScript `String.prototype.trim`: strip leading and trailing JavaScript
whitespace. -/
def jsTrim (s : String) : String :=
  String.mk (((s.data.dropWhile isJsWhitespace).reverse.dropWhile isJsWhitespace).reverse)

/-- The longest digit prefix interpreted as a decimal number; `none` when the
input does not start with a digit. -/
def parseDigits (cs : List Char) : Option Nat :=
  let ds := cs.takeWhile Char.isDigit
  if ds.isEmpty then none
  else some (ds.foldl (fun acc c => acc * 10 + (c.toNat - 48)) 0)

/-- `Number.parseInt(str, 10)`: skip leading whitespace, read an optional
sign, then the longest prefix of decimal digits, ignoring everything after
it; `none` models the `NaN` result when no digits are found. The numeric
value is modelled exactly as an integer. -/
def parseInt10 (s : String) : Option Int :=
  match s.data.dropWhile isJsWhitespace with
  | '-' :: cs => (parseDigits cs).map (fun n => -(n : Int))
  | '+' :: cs => (parseDigits cs).map (fun n => (n : Int))
  | cs => (parseDigits cs).map (fun n => (n : Int))

/-- Day number (days since 1970-01-01) of a civil date, for month in 1..12;
the standard era-based civil-calendar computation. -/
def daysFromCivil (y m d : Int) : Int :=
  let y2 := if m ≤ 2 then y - 1 else y
  let era := Int.fdiv y2 400
  let yoe := y2 - era * 400
  let mp := Int.emod (m + 9) 12
  let doy := Int.fdiv (153 * mp + 2) 5 + d - 1
  let doe := yoe * 365 + Int.fdiv yoe 4 - Int.fdiv yoe 100 + doy
  era * 146097 + doe - 719468

/-- Civil date (year, month, day) of a day number, inverse of
`daysFromCivil`. -/
def civilFromDays (z0 : Int) : Int × Int × Int :=
  let z := z0 + 719468
  let era := Int.fdiv z 146097
  let doe := z - era * 146097
  let yoe := Int.fdiv (doe - Int.fdiv doe 1460 + Int.fdiv doe 36524 - Int.fdiv doe 146096) 365
  let y := yoe + era * 400
  let doy := doe - (365 * yoe + Int.fdiv yoe 4 - Int.fdiv yoe 100)
  let mp := Int.fdiv (5 * doy + 2) 153
  let d := doy - Int.fdiv (153 * mp + 2) 5 + 1
  let m := mp + (if mp < 10 then 3 else -9)
  (if m ≤ 2 then y + 1 else y, m, d)

/-- The `MakeDay` arithmetic behind `Date.UTC(year, monthIndex, day)`: a year
argument between 0 and 99 means 1900+year, the month index is floor-divided
into the year, and any day value (also out of range) shifts the date by plain
day arithmetic. The result is the day number of the represented UTC date. -/
def dateUTCDays (year month day : Int) : Int :=
  let y := if 0 ≤ year ∧ year ≤ 99 then year + 1900 else year
  let ym := y + Int.fdiv month 12
  let mn := Int.emod month 12
  daysFromCivil ym (mn + 1) 1 + (day - 1)

/-- English month names used by the "en" long month format. -/
def monthName (m : Int) : String :=
  if m = 1 then "January" else if m = 2 then "February"
  else if m = 3 then "March" else if m = 4 then "April"
  else if m = 5 then "May" else if m = 6 then "June"
  else if m = 7 then "July" else if m = 8 then "August"
  else if m = 9 then "September" else if m = 10 then "October"
  else if m = 11 then "November" else if m = 12 then "December" else ""

/-- `Intl.DateTimeFormat("en", (year numeric, month long, day numeric))`
applied to a UTC timestamp at midnight of the given day number. The ambient
system time zone of the build machine is modelled as UTC, so the formatted
civil date is exactly the one the timestamp stores. -/
def formatEnDateUTC (z : Int) : String :=
  let c := civilFromDays z
  monthName c.2.1 ++ " " ++ toString c.2.2 ++ ", " ++ toString c.1

/-- JavaScript `slug.split("-")`: the pieces between the `-` separators,
keeping empty pieces (splitting the empty string gives one empty piece). -/
def splitOnDash : List Char → List (List Char)
  | [] => [[]]
  | c :: rest =>
    if c = '-' then [] :: splitOnDash rest
    else
      match splitOnDash rest with
      | [] => [[c]]
      | w :: ws => (c :: w) :: ws

/-- `formatTripTitle` from `scripts/build.ts` (lines 157-177): a slug with
exactly three `-`-separated parts that all parse with `Number.parseInt` is
rendered as a long-form date via `Date.UTC`; every other slug is returned
unchanged. -/
def formatTripTitle (slug : String) : String :=
  match splitOnDash slug.data with
  | [yearStr, monthStr, dayStr] =>
    match parseInt10 (String.mk yearStr), parseInt10 (String.mk monthStr),
        parseInt10 (String.mk dayStr) with
    | some year, some month, some day => formatEnDateUTC (dateUTCDays year (month - 1) day)
    | _, _, _ => slug
  | _ => slug

/-- C4 counterexample: the claim says `formatTripTitle "kyoto-trip"` is the
word-capitalized `"Kyoto Trip"`, but the function returns non-date slugs
unchanged (`return slug`), so the result is `"kyoto-trip"`, which differs
from `"Kyoto Trip"`. -/
theorem formatTripTitle_kyoto_not_capitalized :
    formatTripTitle "kyoto-trip" = "kyoto-trip" ∧ "kyoto-trip" ≠ "Kyoto Trip" := by
  exact ⟨by decide, by decide⟩

/-- C4 (amended): `formatTripTitle` maps the date-pattern slug `"2025-12-31"`
to the long-form date title `"December 31, 2025"`, and returns the non-date
slug `"kyoto-trip"` unchanged (no word capitalization is applied). -/
theorem formatTripTitle_examples :
    formatTripTitle "2025-12-31" = "December 31, 2025"
      ∧ formatTripTitle "kyoto-trip" = "kyoto-trip" := by
  exact ⟨by decide, by decide⟩

/-- C10: the date branch of `formatTripTitle` triggers for every slug with
exactly three `-`-separated segments whose leading digits parse under
`Number.parseInt` (trailing non-digits are ignored), and renders via the
`Date.UTC` arithmetic; so `"2025-01-05x"` becomes the date title
`"January 5, 2025"` instead of passing through, and the out-of-range month in
`"2025-13-01"` rolls over to `"January 1, 2026"` instead of being rejected. -/
theorem formatTripTitle_date_detection :
    (∀ (slug : String) (a b c : List Char) (y m d : Int),
        splitOnDash slug.data = [a, b, c] →
        parseInt10 (String.mk a) = some y →
        parseInt10 (String.mk b) = some m →
        parseInt10 (String.mk c) = some d →
        formatTripTitle slug = formatEnDateUTC (dateUTCDays y (m - 1) d))
      ∧ formatTripTitle "2025-01-05x" = "January 5, 2025"
      ∧ formatTripTitle "2025-01-05x" ≠ "2025-01-05x"
      ∧ formatTripTitle "2025-13-01" = "January 1, 2026" := by
  refine ⟨?_, by decide, by decide, by decide⟩
  intro slug a b c y m d hsplit ha hb hc
  unfold formatTripTitle
  rw [hsplit]
  simp [ha, hb, hc]

/-- Witness for C10: the general date-detection statement applied to the
concrete slug `"1999-2-3tail"`. -/
theorem formatTripTitle_date_detection_witness :
    formatTripTitle "1999-2-3tail" = formatEnDateUTC (dateUTCDays 1999 (2 - 1) 3) :=
  formatTripTitle_date_detection.1 "1999-2-3tail" "1999".data "2".data "3tail".data 1999 2 3
    (by decide) (by decide) (by decide) (by decide)

/-- `FALLBACK_OVERVIEW_HTML` from `scripts/build.ts` (lines 20-34). -/
def FALLBACK_OVERVIEW_HTML : String :=
  "<!DOCTYPE html>
<html lang=\"en\">
  <head>
    <meta charset=\"UTF-8\" />
    <meta name=\"viewport\" content=\"width=device-width, initial-scale=1\" />
    <title>Overview not provided</title>
    <link rel=\"stylesheet\" href=\"https://cdn.jsdelivr.net/npm/tailwindcss@3.4.15/dist/tailwind.min.css\" />
  </head>
  <body class=\"min-h-screen bg-slate-950\">
    <main class=\"mx-auto flex min-h-screen max-w-xl flex-col items-center justify-center gap-4 px-6 text-center text-slate-200\">
      <h1 class=\"text-2xl font-semibold tracking-tight\">Overview not provided</h1>
      <p class=\"text-sm text-slate-400\">This trip does not include an <code>index.html</code> yet. Use the AI tabs or edit the overview file to add content.</p>
    </main>
  </body>
</html>"

/-- Outcome stored for one file of a trip directory: readable text, or a file
whose read fails with an error other than ENOENT. -/
inductive FileContent where
  | ok (contents : String)
  | unreadable
deriving DecidableEq

/-- A trip subdirectory: its name and its directory listing, each file with
its read outcome. -/
structure TripDir where
  name : String
  files : List (String × FileContent)
deriving DecidableEq

/-- An entry of the source root as listed by `fs.readdir` with file types;
`discoverTrips` keeps only the directories. -/
inductive DirEntry where
  | dir (d : TripDir)
  | file (name : String)
deriving DecidableEq

/-- The `TripData` record from `scripts/build.ts` (lines 5-10). -/
structure TripData where
  slug : String
  title : String
  aiFiles : List String
  overviewHtml : String
deriving DecidableEq

/-- Result of `fs.readFile(path.join(tripPath, "index.html"), "utf8")`: the
text when the file exists and is readable, ENOENT when it is absent, and any
other failure as `err`. -/
inductive ReadResult where
  | ok (contents : String)
  | enoent
  | err
deriving DecidableEq

/-- Reading the reserved `index.html` of a trip directory in the model. -/
def readIndex (d : TripDir) : ReadResult :=
  match d.files.lookup "index.html" with
  | none => .enoent
  | some (.ok s) => .ok s
  | some .unreadable => .err

/-- `file.toLowerCase().endsWith(".html")` from the `htmlFiles` filter. -/
def endsWithDotHtml (file : String) : Bool :=
  (".html".data).isSuffixOf (toLowerStr file).data

/-- The `aiFiles` computation of the discovery loop (lines 57-60): keep the
`.html` files (case-insensitively), drop the reserved `index.html` and
`overview.html` names (case-insensitively), and sort. -/
def tripAiFiles (d : TripDir) : List String :=
  sortAiFiles (((d.files.map Prod.fst).filter endsWithDotHtml).filter
    (fun file => toLowerStr file != "index.html" && toLowerStr file != OVERVIEW_FILENAME))

/-- The body of the `for (const folder of tripFolders)` loop of
`discoverTrips` (lines 53-82) for one directory: the overview text is the
file's contents when present with non-whitespace content, the fixed
placeholder when the file is absent (ENOENT) or blank, and any other read
failure is rethrown. -/
def processTrip (d : TripDir) : Except Unit TripData :=
  match readIndex d with
  | .err => .error ()
  | .enoent => .ok ⟨d.name, formatTripTitle d.name, tripAiFiles d, FALLBACK_OVERVIEW_HTML⟩
  | .ok raw => .ok ⟨d.name, formatTripTitle d.name, tripAiFiles d,
      if 0 < (jsTrim raw).data.length then raw else FALLBACK_OVERVIEW_HTML⟩

/-- Sequential processing with fail-fast error propagation, the embedding of
the awaited loop in which a thrown error aborts the whole discovery. -/
def mapExcept {α β ε : Type} (f : α → Except ε β) : List α → Except ε (List β)
  | [] => .ok []
  | x :: xs =>
    match f x with
    | .error e => .error e
    | .ok y =>
      match mapExcept f xs with
      | .error e => .error e
      | .ok ys => .ok (y :: ys)

instance : DecidableRel (fun a b : TripData => cmpList b.slug.data a.slug.data ≤ 0) :=
  fun _ _ => Int.decLe _ _

/-- View of an `Except` value as a sum, used to decide equality. -/
def exceptToSum {ε α : Type} : Except ε α → ε ⊕ α
  | .error e => .inl e
  | .ok a => .inr a

instance {ε α : Type} [DecidableEq ε] [DecidableEq α] : DecidableEq (Except ε α) := fun x y =>
  decidable_of_iff (exceptToSum x = exceptToSum y) (by cases x <;> cases y <;> simp [exceptToSum])

/-- `discoverTrips` from `scripts/build.ts` (lines 47-85): keep the directory
entries of the source root, process each in order, then sort the trips with
the comparator `(a, b) => b.slug.localeCompare(a.slug)` (descending slug). -/
def discoverTrips (root : List DirEntry) : Except Unit (List TripData) :=
  match mapExcept processTrip
      (root.filterMap (fun e => match e with | .dir d => some d | .file _ => none)) with
  | .error e => .error e
  | .ok trips => .ok (List.insertionSort (fun a b => cmpList b.slug.data a.slug.data ≤ 0) trips)

theorem mapExcept_ok_mem {α β ε : Type} {f : α → Except ε β} :
    ∀ {xs : List α} {ys : List β}, mapExcept f xs = .ok ys →
      ∀ {x}, x ∈ xs → ∃ y, f x = .ok y ∧ y ∈ ys := by
  intro xs
  induction xs with
  | nil => intro ys _ x hx; cases hx
  | cons a as ih =>
    intro ys h x hx
    unfold mapExcept at h
    cases hfa : f a with
    | error e => rw [hfa] at h; cases h
    | ok y =>
      rw [hfa] at h
      cases hrec : mapExcept f as with
      | error e => rw [hrec] at h; cases h
      | ok ys' =>
        rw [hrec] at h
        injection h with h
        subst h
        rcases List.mem_cons.mp hx with rfl | hx
        · exact ⟨y, hfa, List.mem_cons_self _ _⟩
        · obtain ⟨y', hy', hmem⟩ := ih hrec hx
          exact ⟨y', hy', List.mem_cons_of_mem _ hmem⟩

theorem mapExcept_ok_mem_rev {α β ε : Type} {f : α → Except ε β} :
    ∀ {xs : List α} {ys : List β}, mapExcept f xs = .ok ys →
      ∀ {y}, y ∈ ys → ∃ x ∈ xs, f x = .ok y := by
  intro xs
  induction xs with
  | nil =>
    intro ys h y hy
    unfold mapExcept at h
    injection h with h
    subst h
    cases hy
  | cons a as ih =>
    intro ys h y hy
    unfold mapExcept at h
    cases hfa : f a with
    | error e => rw [hfa] at h; cases h
    | ok y' =>
      rw [hfa] at h
      cases hrec : mapExcept f as with
      | error e => rw [hrec] at h; cases h
      | ok ys' =>
        rw [hrec] at h
        injection h with h
        subst h
        rcases List.mem_cons.mp hy with rfl | hy
        · exact ⟨a, List.mem_cons_self _ _, hfa⟩
        · obtain ⟨x, hx, hfx⟩ := ih hrec hy
          exact ⟨x, List.mem_cons_of_mem _ hx, hfx⟩

theorem mapExcept_error_of_mem {α β ε : Type} {f : α → Except ε β} :
    ∀ {xs : List α} {x}, x ∈ xs → ∀ {e}, f x = .error e →
      ∃ e', mapExcept f xs = .error e' := by
  intro xs
  induction xs with
  | nil => intro x hx; cases hx
  | cons a as ih =>
    intro x hx e hfx
    rcases List.mem_cons.mp hx with rfl | hx
    · exact ⟨e, by unfold mapExcept; rw [hfx]⟩
    · unfold mapExcept
      cases hfa : f a with
      | error e2 => exact ⟨e2, rfl⟩
      | ok y =>
        obtain ⟨e', he'⟩ := ih hx hfx
        rw [he']
        exact ⟨e', rfl⟩

/-- Directories of the source root kept by the discovery scan. -/
def rootDirs (root : List DirEntry) : List TripDir :=
  root.filterMap (fun e => match e with | .dir d => some d | .file _ => none)

theorem discoverTrips_eq (root : List DirEntry) :
    discoverTrips root =
      match mapExcept processTrip (rootDirs root) with
      | .error e => .error e
      | .ok trips =>
          .ok (List.insertionSort (fun a b => cmpList b.slug.data a.slug.data ≤ 0) trips) := rfl

/-- C2: a trip directory whose `index.html` reads successfully with content
that is non-empty after trimming contributes a `TripData` whose
`overviewHtml` is exactly that file's contents. -/
theorem discoverTrips_overview_roundtrip
    (root : List DirEntry) (d : TripDir) (raw : String) (trips : List TripData)
    (hmem : DirEntry.dir d ∈ root)
    (hread : readIndex d = .ok raw)
    (htrim : 0 < (jsTrim raw).data.length)
    (hok : discoverTrips root = .ok trips) :
    ∃ t ∈ trips, t.slug = d.name ∧ t.overviewHtml = raw := by
  rw [discoverTrips_eq] at hok
  have hd : d ∈ rootDirs root := by
    unfold rootDirs
    exact List.mem_filterMap.mpr ⟨DirEntry.dir d, hmem, rfl⟩
  cases hmap : mapExcept processTrip (rootDirs root) with
  | error e => rw [hmap] at hok; cases hok
  | ok pre =>
    rw [hmap] at hok
    injection hok with hok
    subst hok
    obtain ⟨t, hft, htmem⟩ := mapExcept_ok_mem hmap hd
    simp only [processTrip, hread, if_pos htrim, Except.ok.injEq] at hft
    subst hft
    exact ⟨_, (List.perm_insertionSort _ pre).mem_iff.mpr htmem, rfl, rfl⟩

/-- C3: a missing (ENOENT) or blank `index.html` yields the fixed placeholder
document and is never an error, while any other read failure aborts the
whole discovery with an error. -/
theorem discoverTrips_fallback_and_errors :
    (∀ (root : List DirEntry) (d : TripDir) (trips : List TripData),
        DirEntry.dir d ∈ root →
        (readIndex d = .enoent ∨ ∃ raw, readIndex d = .ok raw ∧ (jsTrim raw).data.length = 0) →
        discoverTrips root = .ok trips →
        ∃ t ∈ trips, t.slug = d.name ∧ t.overviewHtml = FALLBACK_OVERVIEW_HTML)
      ∧ (∀ d : TripDir, readIndex d ≠ .err → ∃ t, processTrip d = .ok t)
      ∧ (∀ (root : List DirEntry) (d : TripDir),
          DirEntry.dir d ∈ root → readIndex d = .err →
          discoverTrips root = .error ()) := by
  refine ⟨?_, ?_, ?_⟩
  · intro root d trips hmem hcase hok
    rw [discoverTrips_eq] at hok
    have hd : d ∈ rootDirs root := by
      unfold rootDirs
      exact List.mem_filterMap.mpr ⟨DirEntry.dir d, hmem, rfl⟩
    cases hmap : mapExcept processTrip (rootDirs root) with
    | error e => rw [hmap] at hok; cases hok
    | ok pre =>
      rw [hmap] at hok
      injection hok with hok
      subst hok
      obtain ⟨t, hft, htmem⟩ := mapExcept_ok_mem hmap hd
      rcases hcase with hread | ⟨raw, hread, htrim⟩
      · simp only [processTrip, hread, Except.ok.injEq] at hft
        subst hft
        exact ⟨_, (List.perm_insertionSort _ pre).mem_iff.mpr htmem, rfl, rfl⟩
      · simp only [processTrip, hread, htrim, if_neg (by omega : ¬0 < (jsTrim raw).data.length),
          Except.ok.injEq] at hft
        subst hft
        exact ⟨_, (List.perm_insertionSort _ pre).mem_iff.mpr htmem, rfl, rfl⟩
  · intro d hne
    cases hread : readIndex d with
    | ok raw =>
      exact ⟨⟨d.name, formatTripTitle d.name, tripAiFiles d,
        if 0 < (jsTrim raw).data.length then raw else FALLBACK_OVERVIEW_HTML⟩,
        by simp only [processTrip, hread]⟩
    | enoent =>
      exact ⟨⟨d.name, formatTripTitle d.name, tripAiFiles d, FALLBACK_OVERVIEW_HTML⟩,
        by simp only [processTrip, hread]⟩
    | err => exact absurd hread hne
  · intro root d hmem hread
    have hd : d ∈ rootDirs root := by
      unfold rootDirs
      exact List.mem_filterMap.mpr ⟨DirEntry.dir d, hmem, rfl⟩
    have herr : processTrip d = .error () := by simp only [processTrip, hread]
    obtain ⟨e', he'⟩ := mapExcept_error_of_mem hd herr
    rw [discoverTrips_eq, he']

instance : IsTrans TripData fun a b => cmpList b.slug.data a.slug.data ≤ 0 := by
  constructor
  intro a b c hab hbc
  exact cmpList_trans c.slug.data b.slug.data a.slug.data hbc hab

instance : IsTotal TripData fun a b => cmpList b.slug.data a.slug.data ≤ 0 := by
  constructor
  intro a b
  have hswap := cmpList_swap a.slug.data b.slug.data
  omega

/-- The spec's worked example of a source root: `2025-01-05` with an
overview and two AI files, and `2024-12-31` with a single AI file and no
`index.html`. -/
def exampleRoot : List DirEntry :=
  [.dir ⟨"2025-01-05",
      [("index.html", .ok "<p>Hi</p>"), ("claude.html", .ok ""), ("gpt.html", .ok "")]⟩,
   .dir ⟨"2024-12-31", [("grok.html", .ok "")]⟩]

/-- What discovery produces on `exampleRoot`. -/
def exampleTrips : List TripData :=
  [⟨"2025-01-05", "January 5, 2025", ["claude.html", "gpt.html"], "<p>Hi</p>"⟩,
   ⟨"2024-12-31", "December 31, 2024", ["grok.html"], FALLBACK_OVERVIEW_HTML⟩]

/-- C7: discovery returns the trips in descending slug order — for every pair
of positions `i < j` the slug at `j` compares at most the slug at `i` — and
the example root with subdirectories `2025-01-05` and `2024-12-31` yields the
trips in exactly that order. -/
theorem discoverTrips_desc_order :
    (∀ (root : List DirEntry) (trips : List TripData),
        discoverTrips root = .ok trips →
        trips.Pairwise (fun a b => cmpList b.slug.data a.slug.data ≤ 0))
      ∧ Except.map (List.map TripData.slug) (discoverTrips exampleRoot)
          = .ok ["2025-01-05", "2024-12-31"] := by
  refine ⟨?_, by decide⟩
  intro root trips hok
  rw [discoverTrips_eq] at hok
  cases hmap : mapExcept processTrip (rootDirs root) with
  | error e => rw [hmap] at hok; cases hok
  | ok pre =>
    rw [hmap] at hok
    injection hok with hok
    subst hok
    exact List.sorted_insertionSort _ pre

/-- Witness for C7: the descending-order statement applied to the concrete
example root. -/
theorem discoverTrips_desc_order_witness :
    exampleTrips.Pairwise (fun a b => cmpList b.slug.data a.slug.data ≤ 0) :=
  discoverTrips_desc_order.1 exampleRoot exampleTrips (by decide)

/-- C8: every `aiFiles` entry of every discovered trip ends in `.html`
case-insensitively and is neither the reserved `index.html` nor the reserved
`overview.html` (both compared case-insensitively). -/
theorem discoverTrips_aiFiles_invariant
    (root : List DirEntry) (trips : List TripData)
    (hok : discoverTrips root = .ok trips) :
    ∀ t ∈ trips, ∀ f ∈ t.aiFiles,
      endsWithDotHtml f = true
        ∧ toLowerStr f ≠ "index.html" ∧ toLowerStr f ≠ OVERVIEW_FILENAME := by
  intro t ht f hf
  rw [discoverTrips_eq] at hok
  cases hmap : mapExcept processTrip (rootDirs root) with
  | error e => rw [hmap] at hok; cases hok
  | ok pre =>
    rw [hmap] at hok
    injection hok with hok
    subst hok
    have htpre : t ∈ pre := (List.perm_insertionSort _ pre).mem_iff.mp ht
    obtain ⟨d, _, hfd⟩ := mapExcept_ok_mem_rev hmap htpre
    have hai : t.aiFiles = tripAiFiles d := by
      unfold processTrip at hfd
      cases hread : readIndex d <;> rw [hread] at hfd
      · injection hfd with hfd
        subst hfd
        rfl
      · injection hfd with hfd
        subst hfd
        rfl
      · cases hfd
    rw [hai] at hf
    unfold tripAiFiles at hf
    have hf2 := (List.perm_insertionSort _ _).mem_iff.mp hf
    have hnames := (List.mem_filter.mp hf2).2
    have hhtml := (List.mem_filter.mp (List.mem_filter.mp hf2).1).2
    simp only [Bool.and_eq_true, bne_iff_ne, ne_eq] at hnames
    exact ⟨hhtml, hnames.1, hnames.2⟩

/-- Witness for C8: the invariant applied to the first AI file of the first
trip discovered from the example root. -/
theorem discoverTrips_aiFiles_invariant_witness :
    endsWithDotHtml "claude.html" = true
      ∧ toLowerStr "claude.html" ≠ "index.html"
      ∧ toLowerStr "claude.html" ≠ OVERVIEW_FILENAME :=
  discoverTrips_aiFiles_invariant exampleRoot exampleTrips (by decide)
    ⟨"2025-01-05", "January 5, 2025", ["claude.html", "gpt.html"], "<p>Hi</p>"⟩
    (by decide) "claude.html" (by decide)

/-- Witness for C2: the round-trip statement applied to the `2025-01-05`
directory of the example root. -/
theorem discoverTrips_overview_roundtrip_witness :
    ∃ t ∈ exampleTrips, t.slug = "2025-01-05" ∧ t.overviewHtml = "<p>Hi</p>" :=
  discoverTrips_overview_roundtrip exampleRoot
    ⟨"2025-01-05",
      [("index.html", .ok "<p>Hi</p>"), ("claude.html", .ok ""), ("gpt.html", .ok "")]⟩
    "<p>Hi</p>" exampleTrips (by decide) (by decide) (by decide) (by decide)

/-- Witness for C3: the placeholder statement applied to the `2024-12-31`
directory of the example root, which has no `index.html`. -/
theorem discoverTrips_fallback_and_errors_witness :
    ∃ t ∈ exampleTrips, t.slug = "2024-12-31" ∧ t.overviewHtml = FALLBACK_OVERVIEW_HTML :=
  discoverTrips_fallback_and_errors.1 exampleRoot
    ⟨"2024-12-31", [("grok.html", .ok "")]⟩ exampleTrips
    (by decide) (Or.inl (by decide)) (by decide)

/-- A console entry recorded by the client helper. -/
inductive LogEntry where
  | warn (msg : String)
  | error (msg : String)
deriving DecidableEq

/-- `parseJsonScript` from `src/web/shared.ts` (lines 13-32). The DOM is
modelled by the `getElementById` lookup: `none` when the element is missing,
`some tc` giving its `textContent` (itself optional). The platform
`JSON.parse` is modelled as a function returning `none` where the original
throws. The result pairs the returned value (`none` models `null`) with the
console entries emitted. -/
def parseJsonScript (jsonParse : String → Option Json)
    (getElementById : String → Option (Option String)) (scriptId : String) :
    Option Json × List LogEntry :=
  match getElementById scriptId with
  | none =>
      (none,
        [.warn ("parseJsonScript: script element with id \"" ++ scriptId ++ "\" not found.")])
  | some textContent =>
    match textContent.map jsTrim with
    | none =>
        (none,
          [.warn ("parseJsonScript: script element with id \"" ++ scriptId ++ "\" is empty.")])
    | some text =>
      if text.data.length = 0 then
        (none,
          [.warn ("parseJsonScript: script element with id \"" ++ scriptId ++ "\" is empty.")])
      else
        match jsonParse text with
        | some value => (some value, [])
        | none =>
            (none,
              [.error ("parseJsonScript: failed to parse JSON in script #" ++ scriptId ++ ".")])

/-- C9: `parseJsonScript` never throws — a missing element, a null, empty or
whitespace-only text content, or text `JSON.parse` rejects all return null
together with exactly one console entry (a warning, or an error in the
parse-failure case), so the calling bootstrap leaves the server-rendered
page unenhanced instead of failing. -/
theorem parseJsonScript_soft_failure :
    (∀ (jp : String → Option Json) (ge : String → Option (Option String)) (sid : String),
        ge sid = none →
        parseJsonScript jp ge sid =
          (none, [.warn ("parseJsonScript: script element with id \"" ++ sid ++ "\" not found.")]))
      ∧ (∀ (jp : String → Option Json) (ge : String → Option (Option String)) (sid : String)
            (tc : Option String),
          ge sid = some tc →
          (tc = none ∨ ∃ s, tc = some s ∧ (jsTrim s).data.length = 0) →
          parseJsonScript jp ge sid =
            (none, [.warn ("parseJsonScript: script element with id \"" ++ sid ++ "\" is empty.")]))
      ∧ (∀ (jp : String → Option Json) (ge : String → Option (Option String)) (sid : String)
            (s : String),
          ge sid = some (some s) → (jsTrim s).data.length ≠ 0 → jp (jsTrim s) = none →
          parseJsonScript jp ge sid =
            (none,
              [.error ("parseJsonScript: failed to parse JSON in script #" ++ sid ++ ".")])) := by
  refine ⟨?_, ?_, ?_⟩
  · intro jp ge sid h
    simp [parseJsonScript, h]
  · intro jp ge sid tc h hcase
    rcases hcase with rfl | ⟨s, rfl, hlen⟩
    · simp [parseJsonScript, h]
    · simp [parseJsonScript, h, hlen]
  · intro jp ge sid s h hlen hparse
    have hlen2 : (jsTrim s).length ≠ 0 := hlen
    simp [parseJsonScript, h, hlen2, hparse]

/-- Witness for C9: the missing-element case at a concrete document that has
no elements at all. -/
theorem parseJsonScript_soft_failure_witness :
    parseJsonScript (fun _ => none) (fun _ => none) "trip-data" =
      (none,
        [.warn ("parseJsonScript: script element with id \"" ++ "trip-data" ++ "\" not found.")]) :=
  parseJsonScript_soft_failure.1 (fun _ => none) (fun _ => none) "trip-data" rfl

/-- Separator class of the regexp `[-_\s]+` used by `formatAgentLabel`. -/
def isSepChar (c : Char) : Bool := c = '-' || c = '_' || isJsWhitespace c

/-- Maximal runs of non-separator characters, front to back; the combined
effect of `split(/[-_\s]+/)` followed by `.filter(Boolean)`. -/
def sepWords : List Char → List Char → List (List Char)
  | acc, [] => if acc.isEmpty then [] else [acc.reverse]
  | acc, c :: rest =>
    if isSepChar c then
      (if acc.isEmpty then sepWords [] rest else acc.reverse :: sepWords [] rest)
    else sepWords (c :: acc) rest

/-- `formatAgentLabel` from `scripts/build.ts` (lines 434-441): strip the
`.html` extension, split into words on `-`, `_` and whitespace, capitalize
the first character of each word, join with single spaces. -/
def formatAgentLabel (filename : String) : String :=
  String.intercalate " "
    ((sepWords [] (stripHtmlExt filename).data).map
      (fun w => String.mk (match w with | [] => [] | c :: rest => Char.toUpper c :: rest)))

/-- UTF-8 bytes of a character, for percent-encoding. -/
def utf8Bytes (c : Char) : List Nat :=
  let n := c.toNat
  if n < 128 then [n]
  else if n < 2048 then [192 + n / 64, 128 + n % 64]
  else if n < 65536 then [224 + n / 4096, 128 + n / 64 % 64, 128 + n % 64]
  else [240 + n / 262144, 128 + n / 4096 % 64, 128 + n / 64 % 64, 128 + n % 64]

/-- Upper-case hexadecimal digit, as `encodeURI` emits. -/
def hexDigitUpper (n : Nat) : Char :=
  if n < 10 then Char.ofNat (48 + n) else Char.ofNat (55 + n)

/-- The characters JavaScript `encodeURI` leaves unescaped: ASCII
alphanumerics plus the URI reserved and unreserved marks. -/
def encodeURIAllowed (c : Char) : Bool :=
  c.isAlpha || c.isDigit
    || c = ';' || c = ',' || c = '/' || c = '?' || c = ':' || c = '@' || c = '&'
    || c = '=' || c = '+' || c = '$' || c = '-' || c = '_' || c = '.' || c = '!'
    || c = '~' || c = '*' || c = '\'' || c = '(' || c = ')' || c = '#'

/-- JavaScript `encodeURI`: percent-encode the UTF-8 bytes of every character
outside the allowed set. -/
def encodeURI (s : String) : String :=
  String.mk (s.data.foldr
    (fun c acc =>
      (if encodeURIAllowed c then [c]
       else (utf8Bytes c).foldr
         (fun b acc2 => '%' :: hexDigitUpper (b / 16) :: hexDigitUpper (b % 16) :: acc2) [])
        ++ acc) [])

/-- The `fallbackList` of `renderTripHtml` (lines 323-334): a joined link
list when the trip has AI files, a fixed paragraph otherwise. -/
def tripFallbackList (trip : TripData) : String :=
  if trip.aiFiles.length > 0 then
    "<ul class=\"mt-3 space-y-2 text-sm text-emerald-200\">
            "
      ++ String.intercalate "\n"
        (trip.aiFiles.map (fun file =>
          "<li><a class=\"underline decoration-emerald-400/60 underline-offset-4 transition hover:text-white\" href=\"./"
            ++ encodeURI file
            ++ "\">"
            ++ escapeHtml (formatAgentLabel file)
            ++ "</a></li>"))
      ++ "
          </ul>"
  else
    "<p class=\"text-sm text-slate-400\">This trip doesn\x27t include any AI suggestion files yet.</p>"

/-- `renderTripHtml` from `scripts/build.ts` (lines 322-415). -/
def renderTripHtml (trip : TripData) : String :=
  let fallbackList := tripFallbackList trip
  let tripDataJson := serializeJson (Json.obj
    [("slug", Json.str trip.slug), ("title", Json.str trip.title),
     ("aiFiles", Json.arr (trip.aiFiles.map Json.str)),
     ("overviewPath", Json.str ("./" ++ OVERVIEW_FILENAME))])
  "<!DOCTYPE html>
<html lang=\"en\">
  <head>
    <meta charset=\"UTF-8\" />
    <meta name=\"viewport\" content=\"width=device-width, initial-scale=1\" />
    <title>"
    ++ escapeHtml trip.title
    ++ " — Trip Hub</title>
    <link rel=\"stylesheet\" href=\"https://cdn.jsdelivr.net/npm/tailwindcss@3.4.15/dist/tailwind.min.css\" />
    <style>
      body \x7b background: radial-gradient(circle at top, #020617 0%, #0f172a 45%, #000 100%); color: #e2e8f0; \x7d
      iframe \x7b background-color: white; \x7d
    </style>
  </head>
  <body class=\"min-h-screen\">
    <div class=\"mx-auto flex min-h-screen max-w-6xl flex-col gap-10 px-6 py-10\">
      <header class=\"flex flex-col gap-4 rounded-3xl border border-white/10 bg-white/5 p-6 shadow-[0_20px_45px_rgba(8,47,73,0.55)] backdrop-blur sm:flex-row sm:items-center sm:justify-between\">
        <div class=\"space-y-2\">
          <p class=\"text-xs uppercase tracking-[0.4em] text-emerald-300\">Trip Hub</p>
          <h1 class=\"text-3xl font-semibold text-white sm:text-4xl\">"
    ++ escapeHtml trip.title
    ++ "</h1>
          <p class=\"text-sm text-slate-400\">Folder: <span class=\"font-mono text-slate-100/90\">"
    ++ escapeHtml trip.slug
    ++ "</span></p>
        </div>
        <div class=\"flex flex-wrap gap-3\">
          <a class=\"inline-flex items-center gap-2 rounded-full border border-white/10 bg-white/10 px-4 py-2 text-sm font-medium text-slate-100 transition hover:border-emerald-300/60 hover:text-emerald-200\" href=\"../\">⟵ Back to trips</a>
          <a class=\"inline-flex items-center gap-2 rounded-full border border-white/10 px-4 py-2 text-sm font-medium text-slate-200 transition hover:border-emerald-300/60 hover:text-white\" href=\"./"
    ++ OVERVIEW_FILENAME
    ++ "\">Open static overview</a>
        </div>
      </header>

      <main class=\"grid gap-8 lg:grid-cols-[minmax(0,1fr),minmax(0,1fr)]\">
        <section class=\"rounded-3xl border border-white/10 bg-white/5 p-6 shadow-[0_20px_45px_rgba(8,47,73,0.55)] backdrop-blur\">
          <div class=\"flex items-center justify-between\">
            <h2 class=\"text-xl font-semibold text-white\">Trip overview</h2>
            <span data-overview-status class=\"text-xs uppercase tracking-wide text-slate-400\">Loading enhanced view…</span>
          </div>
          <div class=\"mt-4 overflow-hidden rounded-2xl border border-white/10 bg-slate-950/70\">
            <iframe
              data-overview-frame
              src=\"./"
    ++ OVERVIEW_FILENAME
    ++ "\"
              title=\"Trip overview\"
              class=\"h-[520px] w-full rounded-2xl border-0\"
            ></iframe>
          </div>
          <p class=\"mt-3 text-xs text-slate-500\">The overview loads directly from the original <code>index.html</code> content.</p>
        </section>

        <section class=\"flex flex-col gap-4 rounded-3xl border border-white/10 bg-white/5 p-6 shadow-[0_20px_45px_rgba(8,47,73,0.55)] backdrop-blur\">
          <div class=\"flex flex-col gap-2\">
            <div class=\"flex items-center justify-between\">
              <h2 class=\"text-xl font-semibold text-white\">AI suggestions</h2>
              <span data-ai-status class=\"text-xs uppercase tracking-wide text-slate-400\">Choose an AI to preview</span>
            </div>
            <p class=\"text-sm text-slate-400\">Switch between generated itineraries without leaving this page.</p>
          </div>
          <div data-ai-tabs class=\"flex flex-wrap gap-2\"></div>
          <div class=\"overflow-hidden rounded-2xl border border-white/10 bg-slate-950/70\">
            <iframe data-ai-frame title=\"AI suggestion\" class=\"h-[520px] w-full rounded-2xl border-0\"></iframe>
          </div>
          <div data-ai-fallback class=\"rounded-2xl border border-emerald-400/20 bg-emerald-400/10 p-4 text-slate-200\">
            <p class=\"text-sm\">Need static versions? Use the direct links below:</p>
            "
    ++ fallbackList
    ++ "
          </div>
        </section>
      </main>

      <footer class=\"flex flex-col items-center gap-2 border-t border-white/10 pt-6 text-center text-xs text-slate-500 sm:flex-row sm:justify-between\">
        <p>Generated as part of the static build.</p>
        <p>Explore more trips on the main hub.</p>
      </footer>
    </div>

    <script id=\"trip-data\" type=\"application/json\">"
    ++ tripDataJson
    ++ "</script>
    <script type=\"module\" src=\"../assets/trip.js\"></script>
  </body>
</html>"

/-- One entry of the server-rendered fallback list of the top-level page
(`renderIndexHtml`, lines 203-223); only the slug and title of the manifest
projection are used. -/
def tripLinkItem (trip : TripData) : String :=
  "
            <li class=\"rounded-xl border border-white/10 bg-white/5 p-4 transition hover:border-emerald-400/60\">
              <div class=\"flex flex-col gap-1\">
                <span class=\"text-xs font-semibold uppercase tracking-wide text-emerald-300\">"
    ++ escapeHtml trip.title
    ++ "</span>
                <span class=\"text-base text-slate-300\">"
    ++ escapeHtml trip.slug
    ++ "</span>
              </div>
              <div class=\"mt-3 flex flex-wrap gap-2\">
                <a class=\"inline-flex items-center gap-2 rounded-lg border border-white/10 bg-white/10 px-3 py-1.5 text-sm font-medium text-white transition hover:border-emerald-400/60 hover:text-emerald-200\" href=\"./"
    ++ encodeURI trip.slug
    ++ "/\">Open trip hub</a>
                <a class=\"inline-flex items-center gap-2 rounded-lg border border-white/10 px-3 py-1.5 text-sm font-medium text-slate-200 transition hover:border-emerald-400/60 hover:text-emerald-200\" href=\"./"
    ++ encodeURI trip.slug
    ++ "/"
    ++ OVERVIEW_FILENAME
    ++ "\">Static overview</a>
              </div>
            </li>"

/-- `renderIndexHtml` from `scripts/build.ts` (lines 179-320): the fixed
no-trips page when the list is empty, otherwise the listing page embedding
the serialized manifest (slug, title, aiFiles — `overviewHtml` is dropped). -/
def renderIndexHtml (trips : List TripData) : String :=
  if trips.length = 0 then
    "<!DOCTYPE html>
<html lang=\"en\">
  <head>
    <meta charset=\"UTF-8\" />
    <meta name=\"viewport\" content=\"width=device-width, initial-scale=1\" />
    <title>Trip Explorer</title>
    <link rel=\"stylesheet\" href=\"https://cdn.jsdelivr.net/npm/tailwindcss@3.4.15/dist/tailwind.min.css\" />
    <style>
      body \x7b background: radial-gradient(circle at top, #0f172a 0%, #020617 45%, #000 100%); color: #f8fafc; \x7d
    </style>
  </head>
  <body class=\"min-h-screen flex items-center justify-center p-8\">
    <div class=\"max-w-2xl text-center space-y-6\">
      <h1 class=\"text-4xl font-semibold tracking-tight\">No trips found</h1>
      <p class=\"text-slate-300 text-lg\">Add trip folders with HTML files under <code>src/generated_html</code> and rerun <code>npm run build:static</code>.</p>
    </div>
  </body>
</html>"
  else
    let tripLinks := String.intercalate "\n" (trips.map tripLinkItem)
    let tripDataJson := serializeJson (Json.arr (trips.map (fun t =>
      Json.obj [("slug", Json.str t.slug), ("title", Json.str t.title),
                ("aiFiles", Json.arr (t.aiFiles.map Json.str))])))
    "<!DOCTYPE html>
<html lang=\"en\">
  <head>
    <meta charset=\"UTF-8\" />
    <meta name=\"viewport\" content=\"width=device-width, initial-scale=1\" />
    <title>Trip Explorer</title>
    <link rel=\"stylesheet\" href=\"https://cdn.jsdelivr.net/npm/tailwindcss@3.4.15/dist/tailwind.min.css\" />
    <style>
      body \x7b background: radial-gradient(circle at top, #0f172a 0%, #020617 45%, #000 100%); color: #f8fafc; \x7d
      ::-webkit-scrollbar \x7b width: 10px; \x7d
      ::-webkit-scrollbar-thumb \x7b background: rgba(148, 163, 184, 0.4); border-radius: 9999px; \x7d
      ::-webkit-scrollbar-track \x7b background: transparent; \x7d
      iframe \x7b background-color: white; \x7d
    </style>
  </head>
  <body class=\"min-h-screen\">
    <div class=\"mx-auto flex min-h-screen max-w-7xl flex-col gap-10 px-6 py-10\">
      <header class=\"space-y-4 text-center\">
        <p class=\"text-sm uppercase tracking-[0.3em] text-emerald-300\">Trip Console</p>
        <h1 class=\"text-4xl font-semibold tracking-tight text-white sm:text-5xl\">Plan, compare, and launch your adventures</h1>
        <p class=\"mx-auto max-w-2xl text-base text-slate-300 sm:text-lg\">
          Browse automatically discovered itineraries, preview their overviews, and switch between AI-generated activity sets without leaving this page.
        </p>
      </header>

      <div class=\"grid flex-1 gap-6 lg:grid-cols-[320px,1fr]\">
        <aside class=\"rounded-3xl border border-white/10 bg-white/5 p-4 shadow-[0_10px_40px_rgba(15,23,42,0.45)]\">
          <div class=\"flex items-center justify-between gap-4 border-b border-white/10 pb-4\">
            <div>
              <h2 class=\"text-xl font-semibold text-white\">Trips</h2>
              <p class=\"text-sm text-slate-400\">"
    ++ toString trips.length
    ++ " available</p>
            </div>
            <span class=\"rounded-full bg-emerald-400/10 px-3 py-1 text-xs font-semibold uppercase tracking-wide text-emerald-200\">Auto</span>
          </div>
          <ul class=\"mt-4 flex max-h-[70vh] flex-col gap-3 overflow-y-auto pr-1\" data-trip-list></ul>
        </aside>

        <section id=\"interactive-panel\" class=\"hidden rounded-3xl border border-white/10 bg-white/5 p-6 shadow-[0_20px_45px_rgba(8,47,73,0.55)] backdrop-blur\">
          <div class=\"flex flex-col gap-8\">
            <div class=\"space-y-2\">
              <span class=\"text-xs font-semibold uppercase tracking-[0.4em] text-emerald-300\">Preview</span>
              <h2 data-trip-title class=\"text-3xl font-semibold text-white sm:text-4xl\">Select a trip</h2>
              <p class=\"text-sm text-slate-400\">Folder: <span data-trip-slug class=\"font-mono text-slate-200\">—</span></p>
              <div class=\"mt-4 flex flex-wrap gap-3\">
                <a data-open-overview class=\"inline-flex items-center gap-2 rounded-full border border-white/10 bg-emerald-400/10 px-4 py-2 text-sm font-medium text-emerald-200 transition hover:border-emerald-300/60 hover:text-white\" href=\"#\">Overview page</a>
                <a data-open-folder class=\"inline-flex items-center gap-2 rounded-full border border-white/10 px-4 py-2 text-sm font-medium text-slate-200 transition hover:border-emerald-300/60 hover:text-white\" href=\"#\">Trip directory</a>
              </div>
            </div>

            <div class=\"space-y-3\">
              <div class=\"flex items-center justify-between\">
                <h3 class=\"text-lg font-semibold text-white\">Overview snapshot</h3>
                <span data-overview-status class=\"text-xs uppercase tracking-wide text-slate-400\">Select a trip to load the overview</span>
              </div>
              <div class=\"overflow-hidden rounded-2xl border border-white/10 bg-slate-950/60\">
                <iframe data-overview-frame title=\"Trip overview\" class=\"h-[520px] w-full rounded-2xl border-0\"></iframe>
              </div>
            </div>

            <div class=\"space-y-4\">
              <div class=\"flex items-center justify-between\">
                <h3 class=\"text-lg font-semibold text-white\">AI suggestions</h3>
                <span data-ai-status class=\"text-xs uppercase tracking-wide text-slate-400\">Select a trip to preview suggestions</span>
              </div>
              <div data-ai-tabs class=\"flex flex-wrap gap-2\"></div>
              <div class=\"overflow-hidden rounded-2xl border border-white/10 bg-slate-950/60\">
                <iframe data-ai-frame title=\"AI suggestion\" class=\"h-[520px] w-full rounded-2xl border-0\"></iframe>
              </div>
            </div>
          </div>
        </section>

        <section id=\"fallback-list\" class=\"rounded-3xl border border-white/10 bg-white/5 p-6 shadow-[0_20px_45px_rgba(8,47,73,0.55)] backdrop-blur\">
          <div class=\"space-y-3\">
            <h2 class=\"text-xl font-semibold text-white\">Trips</h2>
            <p class=\"text-sm text-slate-300\">JavaScript is disabled. Use the quick links below to open each trip.</p>
          </div>
          <ul class=\"mt-4 grid gap-4\" role=\"list\">
            "
    ++ tripLinks
    ++ "
          </ul>
        </section>
      </div>

      <footer class=\"flex flex-col items-center gap-2 border-t border-white/10 pt-6 text-center text-xs text-slate-500 sm:flex-row sm:justify-between\">
        <p>Static output generated by <code>npm run build:static</code>.</p>
        <p class=\"flex items-center gap-2\">Hosted on <span class=\"font-semibold text-white\">Vercel</span></p>
      </footer>
    </div>

    <script id=\"trip-data\" type=\"application/json\">"
    ++ tripDataJson
    ++ "</script>
    <script type=\"module\" src=\"./assets/app.js\"></script>
  </body>
</html>"

/-- An ambient run environment a build process could observe (wall clock,
randomness). The build script never reads any of it — no `Date.now`,
`Math.random` or similar appears in `scripts/build.ts` — which is exactly
what the determinism claim asserts. -/
structure BuildEnv where
  nowMillis : Nat
  randomSeed : Nat

/-- The rendered artifacts `main` writes (`scripts/build.ts` lines 38-45 and
92-136) as path-content pairs: per trip the persisted overview file and the
synthesized hub page, then the top-level index page. (The remaining outputs
are verbatim copies of source files, byte-identical to their inputs by
definition.) -/
def buildArtifacts (_env : BuildEnv) (root : List DirEntry) :
    Except Unit (List (String × String)) :=
  match discoverTrips root with
  | .error e => .error e
  | .ok trips =>
      .ok ((trips.map (fun t =>
          [(t.slug ++ "/" ++ OVERVIEW_FILENAME, t.overviewHtml),
           (t.slug ++ "/index.html", renderTripHtml t)])).flatten
        ++ [("index.html", renderIndexHtml trips)])

/-- C6: the build pipeline is deterministic — the written artifacts are a
function of the discovered source tree alone; `discoverTrips`,
`renderTripHtml` and `renderIndexHtml` never consult the ambient environment
(clock, randomness), so two runs over an identical source tree produce
byte-identical output. -/
theorem buildArtifacts_deterministic (env1 env2 : BuildEnv) (root : List DirEntry) :
    buildArtifacts env1 root = buildArtifacts env2 root := rfl

end TripSite
